import Mathlib

/-! # Verification of the si5326 register-access gateway

Shallow embedding of `src/si5326.c`: the reset-signature presence
validation (`si5326_init_client`), the sysfs command dispatcher
(`si5326_store_reg`, built on `sscanf(buf, "%d 0x%x", &addr, &value)`),
the read query (`si5326_show_reg`, built on `sprintf(buf, "%02x %02x",
last_addr, rc)`), and the attach path (`si5326_probe`).

The Register Transport (the i2c smbus layer) is external to the
repository; it is modelled as an abstract pair of functions with the
kernel return convention: a read returns a nonnegative data byte or a
negative errno, a write returns 0 on success or a negative errno.

Machine integers: the C locals `unsigned addr, value` are modelled as
`Nat` reduced mod 2^32 (`toUnsigned`), and the C `int` fields and
parameters as `Int` obtained through the usual wrap-around conversion
(`intOfUnsigned`).  The `u8 value` parameter of `si5326_write_reg`
truncates mod 256 at the call site, exactly as the C prototype does.
-/

namespace SI5326

/-- errno value used by the driver for transport and parse failures. -/
def EIO_errno : Int := 5

/-- errno value used by the driver when the chip is not recognized. -/
def ENODEV : Int := 19

/-- Observable events of one driver entry point, in program order.
`lockAcquire`/`lockRelease` would be emitted by `mutex_lock` and
`mutex_unlock` calls on `si5326_data.lock`; the source contains no such
call outside `mutex_init`, so no trace below ever holds a lock event. -/
inductive Op where
  | lockAcquire : Op
  | lockRelease : Op
  | readOp : Int → Op
  | writeOp : Int → Nat → Op
deriving DecidableEq, Repr

/-- The external Register Transport: `i2c_smbus_read_byte_data` /
`i2c_smbus_write_byte_data` as seen through `si5326_read_reg` and
`si5326_write_reg`.  A read yields a data byte (nonnegative) or a
negative errno; a write yields 0 or a negative errno. -/
structure Transport where
  readReg : Int → Int
  writeReg : Int → Nat → Int

/-- Per-device state `struct si5326_data` (the `client` pointer and the
never-acquired mutex carry no modelled state). -/
structure si5326_data where
  last_addr : Int
deriving DecidableEq, Repr

/-- `const u8 si5326_reset_values[] = { 0x14, 0xe4, 0x42, 0x05 }`. -/
def si5326_reset_values : List Nat := [0x14, 0xe4, 0x42, 0x05]

/-- `#define NRESETS sizeof(si5326_reset_values)`. -/
def NRESETS : Nat := si5326_reset_values.length

/-- `si5326_reset_values[i]` as the `int` it is compared against. -/
def resetValueInt (i : Nat) : Int := (si5326_reset_values.getD i 0 : Int)

/-- 2^32, the modulus of the C `unsigned` locals. -/
def UINT_MOD : Nat := 4294967296

/-- Value of a C `unsigned` holding the integer `i` (wrap mod 2^32). -/
def toUnsigned (i : Int) : Nat := (i % (UINT_MOD : Int)).toNat

/-- Conversion of a C `unsigned` value to a C `int` (wrap-around). -/
def intOfUnsigned (n : Nat) : Int :=
  if n < 2147483648 then (n : Int) else (n : Int) - (UINT_MOD : Int)

/-! ## Model of `sscanf(buf, "%d 0x%x", &addr, &value)`

Character classes follow C `isspace`/`isdigit`/`isxdigit` in the POSIX
locale, written over `Char.toNat` codepoints. -/

/-- C `isspace`: space (32) or horizontal tab .. carriage return (9..13). -/
def isCSpace (c : Char) : Bool := c.toNat = 32 || (9 ≤ c.toNat && c.toNat ≤ 13)

/-- Value of a decimal digit character, if it is one. -/
def decDigitVal (c : Char) : Option Nat :=
  if 48 ≤ c.toNat && c.toNat ≤ 57 then Option.some (c.toNat - 48) else Option.none

/-- Value of a hexadecimal digit character, if it is one. -/
def hexDigitVal (c : Char) : Option Nat :=
  if 48 ≤ c.toNat && c.toNat ≤ 57 then Option.some (c.toNat - 48)
  else if 97 ≤ c.toNat && c.toNat ≤ 102 then Option.some (c.toNat - 87)
  else if 65 ≤ c.toNat && c.toNat ≤ 70 then Option.some (c.toNat - 55)
  else Option.none

/-- `c` is a decimal digit. -/
def isDecChar (c : Char) : Bool := (decDigitVal c).isSome

/-- `c` is a hexadecimal digit. -/
def isHexChar (c : Char) : Bool := (hexDigitVal c).isSome

/-- Value of a string of decimal digit characters. -/
def decValue (l : List Char) : Nat :=
  l.foldl (fun a c => a * 10 + ((decDigitVal c).getD 0)) 0

/-- Value of a string of hexadecimal digit characters. -/
def hexValue (l : List Char) : Nat :=
  l.foldl (fun a c => a * 16 + ((hexDigitVal c).getD 0)) 0

/-- Leading-whitespace skip performed by whitespace directives and by the
numeric conversions themselves. -/
def dropCSpaces : List Char → List Char
  | [] => []
  | c :: cs => if isCSpace c then dropCSpaces cs else c :: cs

/-- Optional sign accepted by the strtol-family conversions:
45 is the minus sign, 43 the plus sign. -/
def scanSign (s : List Char) : Bool × List Char :=
  match s with
  | [] => (false, [])
  | c :: cs =>
    if c.toNat = 45 then (true, cs)
    else if c.toNat = 43 then (false, cs)
    else (false, c :: cs)

/-- Longest run of digits, accumulating their value in base `base`. -/
def scanNum (base : Nat) (dv : Char → Option Nat) (acc : Nat) : List Char → Nat × List Char
  | [] => (acc, [])
  | c :: cs =>
    match dv c with
    | Option.some d => scanNum base dv (acc * base + d) cs
    | Option.none => (acc, c :: cs)

/-- The `%d` conversion: skip whitespace, optional sign, at least one
decimal digit; `Option.none` is a matching failure. -/
def scanDec (s : List Char) : Option (Int × List Char) :=
  let sg := scanSign (dropCSpaces s)
  match sg.2 with
  | [] => Option.none
  | c :: cs =>
    match decDigitVal c with
    | Option.none => Option.none
    | Option.some d =>
      let r := scanNum 10 decDigitVal d cs
      Option.some (if sg.1 then -(r.1 : Int) else (r.1 : Int), r.2)

/-- strtoul-style optional hexadecimal prefix: `0` (48) followed by `x`
(120) or `X` (88) is stripped only when a hexadecimal digit follows. -/
def scanHexBody (s : List Char) : List Char :=
  match s with
  | c0 :: c1 :: c2 :: cs =>
    if c0.toNat = 48 && (c1.toNat = 120 || c1.toNat = 88) && isHexChar c2
    then c2 :: cs else c0 :: c1 :: c2 :: cs
  | _ => s

/-- The `%x` conversion: skip whitespace, optional sign, optional `0x`
prefix, at least one hexadecimal digit. -/
def scanHex (s : List Char) : Option (Int × List Char) :=
  let sg := scanSign (dropCSpaces s)
  match scanHexBody sg.2 with
  | [] => Option.none
  | c :: cs =>
    match hexDigitVal c with
    | Option.none => Option.none
    | Option.some d =>
      let r := scanNum 16 hexDigitVal d cs
      Option.some (if sg.1 then -(r.1 : Int) else (r.1 : Int), r.2)

/-- Number of conversions `sscanf(buf, "%d 0x%x", &addr, &value)`
performed, with the values left in the `unsigned` locals.  `zero` also
stands for the `EOF` return on empty input: the dispatcher's `switch`
sends both to its `default` arm. -/
inductive ScanResult where
  | zero : ScanResult
  | one : Nat → ScanResult
  | two : Nat → Nat → ScanResult
deriving DecidableEq, Repr

/-- `sscanf(buf, "%d 0x%x", &addr, &value)`: a `%d` conversion, a
whitespace directive, the literal characters `0` (48) and `x` (120),
then a `%x` conversion. -/
def sscanf_d_0x (s : List Char) : ScanResult :=
  match scanDec s with
  | Option.none => ScanResult.zero
  | Option.some (a, rest) =>
    let ua := toUnsigned a
    match dropCSpaces rest with
    | c0 :: c1 :: rest2 =>
      if c0.toNat = 48 && c1.toNat = 120 then
        match scanHex rest2 with
        | Option.none => ScanResult.one ua
        | Option.some (v, _) => ScanResult.two ua (toUnsigned v)
      else ScanResult.one ua
    | _ => ScanResult.one ua

/-! ## The sysfs store and show entry points -/

/-- `buf[0] == '#'` (35); an empty sysfs buffer reads as the NUL byte,
which is not the comment character. -/
def isCommentChar (buf : List Char) : Bool :=
  match buf with
  | [] => false
  | c :: _ => c.toNat = 35

/-- Result of one `si5326_store_reg` call: the returned `ssize_t`, the
device state after the call, the bus transactions issued, and the
`dev_err` diagnostics emitted. -/
structure StoreResult where
  ret : Int
  data : si5326_data
  ops : List Op
  log : List (List Char)
deriving DecidableEq, Repr

/-- `si5326_store_reg`: comment lines succeed untouched; two conversions
issue one `si5326_write_reg` (whose `u8` prototype truncates the value
mod 256); one conversion records `last_addr`; anything else logs the
buffer and fails with `-EIO_errno`. -/
def si5326_store_reg (t : Transport) (data : si5326_data) (buf : List Char)
    (count : Nat) : StoreResult :=
  if isCommentChar buf then
    ⟨(count : Int), data, [], []⟩
  else
    match sscanf_d_0x buf with
    | ScanResult.two addr value =>
      if t.writeReg (intOfUnsigned addr) (value % 256) ≠ 0 then
        ⟨-EIO_errno, data, [Op.writeOp (intOfUnsigned addr) (value % 256)], []⟩
      else
        ⟨(count : Int), data, [Op.writeOp (intOfUnsigned addr) (value % 256)], []⟩
    | ScanResult.one addr =>
      ⟨(count : Int), { data with last_addr := intOfUnsigned addr }, [], []⟩
    | ScanResult.zero =>
      ⟨-EIO_errno, data, [], [buf]⟩

/-- Lowercase hexadecimal digit character of `d < 16`. -/
def hexChar (d : Nat) : Char :=
  if d < 10 then Char.ofNat (48 + d) else Char.ofNat (87 + d)

/-- Hexadecimal digit characters of `n`, most significant first, with
enough fuel to divide `n` down to 0. -/
def hexCharsAux : Nat → Nat → List Char
  | 0, _ => []
  | fuel + 1, n =>
    if n = 0 then [] else hexCharsAux fuel (n / 16) ++ [hexChar (n % 16)]

/-- Hexadecimal digit characters of `n`, most significant first
(empty for 0). -/
def hexChars (n : Nat) : List Char := hexCharsAux n n

/-- The `%02x` directive: lowercase hexadecimal, zero-padded to at least
two characters. -/
def fmt02x (n : Nat) : List Char :=
  let ds := if n = 0 then [hexChar 0] else hexChars n
  if ds.length < 2 then List.replicate (2 - ds.length) (hexChar 0) ++ ds else ds

/-- Result of one `si5326_show_reg` call: the returned `ssize_t`, the
characters written to the sysfs buffer (if any), and the bus
transactions issued. -/
structure ShowResult where
  ret : Int
  out : Option (List Char)
  ops : List Op
deriving DecidableEq, Repr

/-- `si5326_show_reg`: one `si5326_read_reg` at `last_addr`; on success
`sprintf(buf, "%02x %02x", data->last_addr, rc)` (both `int` arguments
reinterpreted as `unsigned` by `%x`), returning its length; on failure
the errno is returned and nothing is written. -/
def si5326_show_reg (t : Transport) (data : si5326_data) : ShowResult :=
  let rc := t.readReg data.last_addr
  if 0 ≤ rc then
    let s := fmt02x (toUnsigned data.last_addr) ++ ' ' :: fmt02x (toUnsigned rc)
    ⟨(s.length : Int), Option.some s, [Op.readOp data.last_addr]⟩
  else
    ⟨rc, Option.none, [Op.readOp data.last_addr]⟩

/-! ## Presence validation and attach -/

/-- Result of `si5326_init_client`: the return code, the indices whose
values the `dev_err` mismatch diagnostics reported, and the bus
transactions issued. -/
structure InitResult where
  ret : Int
  mismatchLog : List Nat
  ops : List Op
deriving DecidableEq, Repr

/-- The `for (ir = 0; ir < NRESETS; ++ir)` loop of `si5326_init_client`,
with `todo = NRESETS - ir` registers left to check and the `fail` flag
accumulated so far.  A failed read aborts with `-EIO_errno`; a mismatch is
logged and checking continues. -/
def si5326_init_go (t : Transport) : Nat → Nat → Bool → InitResult
  | 0, _, fail => ⟨if fail then -ENODEV else 0, [], []⟩
  | todo + 1, ir, fail =>
    let rc := t.readReg ((ir : Int))
    if rc < 0 then
      ⟨-EIO_errno, [], [Op.readOp ((ir : Int))]⟩
    else if rc ≠ resetValueInt ir then
      let r := si5326_init_go t todo (ir + 1) true
      ⟨r.ret, ir :: r.mismatchLog, Op.readOp ((ir : Int)) :: r.ops⟩
    else
      let r := si5326_init_go t todo (ir + 1) fail
      ⟨r.ret, r.mismatchLog, Op.readOp ((ir : Int)) :: r.ops⟩

/-- `si5326_init_client`: check registers `0 .. NRESETS-1` against
`si5326_reset_values`. -/
def si5326_init_client (t : Transport) : InitResult :=
  si5326_init_go t NRESETS 0 false

/-- `si5326_probe` after a successful functionality check: `kzalloc`
yields a zero-filled `si5326_data` (so `last_addr = 0`), then
`si5326_init_client` validates the device; on its failure the state is
freed and the error returned. -/
def si5326_probe (t : Transport) : Except Int si5326_data :=
  let data : si5326_data := { last_addr := 0 }
  let err := (si5326_init_client t).ret
  if err ≠ 0 then Except.error err else Except.ok data

/-- Registers `ir, ir+1, ..., ir+todo-1`, the addresses the validation
loop visits. -/
def readWindow : Nat → Nat → List Nat
  | _, 0 => []
  | ir, todo + 1 => ir :: readWindow (ir + 1) todo

/-- A transport answering the reset signature at registers 0..3. -/
def tGood : Transport :=
  ⟨fun r => if r = 0 then 0x14 else if r = 1 then 0xe4
            else if r = 2 then 0x42 else if r = 3 then 0x05 else -EIO_errno,
   fun _ _ => 0⟩

/-- A transport whose reads succeed but disagree with the reset
signature at indices 1 and 3. -/
def tMismatch : Transport :=
  ⟨fun r => if r = 0 then 0x14 else if r = 1 then 0x00
            else if r = 2 then 0x42 else if r = 3 then 0x07 else -EIO_errno,
   fun _ _ => 0⟩

/-- A transport whose reads fail from register 2 on. -/
def tFailAt2 : Transport :=
  ⟨fun r => if r = 0 then 0x14 else if r = 1 then 0xe4 else -EIO_errno,
   fun _ _ => 0⟩

/-- A transport that accepts no write. -/
def tWriteFail : Transport := ⟨tGood.readReg, fun _ _ => -EIO_errno⟩

lemma mem_readWindow (todo : Nat) :
    ∀ ir k : Nat, k ∈ readWindow ir todo ↔ ir ≤ k ∧ k < ir + todo := by
  induction todo with
  | zero =>
    intro ir k
    simp [readWindow]
  | succ n ih =>
    intro ir k
    rw [readWindow]
    simp [List.mem_cons, ih (ir + 1) k]
    omega

lemma si5326_init_go_ok (t : Transport) (todo : Nat) :
    ∀ (ir : Nat) (fail : Bool),
      (∀ k ∈ readWindow ir todo, 0 ≤ t.readReg ((k : Int))) →
      si5326_init_go t todo ir fail =
        ⟨if fail || (readWindow ir todo).any
              (fun k : Nat => t.readReg ((k : Int)) != resetValueInt k)
          then -ENODEV else 0,
         (readWindow ir todo).filter
           (fun k : Nat => t.readReg ((k : Int)) != resetValueInt k),
         (readWindow ir todo).map (fun k : Nat => Op.readOp ((k : Int)))⟩ := by
  induction todo with
  | zero =>
    intro ir fail _
    simp [si5326_init_go, readWindow]
  | succ n ih =>
    intro ir fail h
    have hir : 0 ≤ t.readReg ((ir : Int)) :=
      h ir (by rw [readWindow]; exact List.mem_cons_self _ _)
    have htail : ∀ k ∈ readWindow (ir + 1) n, 0 ≤ t.readReg ((k : Int)) :=
      fun k hk => h k (by rw [readWindow]; exact List.mem_cons_of_mem _ hk)
    rw [readWindow]
    simp only [si5326_init_go]
    rw [if_neg (by omega)]
    by_cases heq : t.readReg ((ir : Int)) = resetValueInt ir
    · rw [if_neg (not_not_intro heq)]
      rw [ih (ir + 1) fail htail]
      simp [List.any_cons, List.filter_cons, heq]
    · rw [if_pos heq]
      rw [ih (ir + 1) true htail]
      simp [List.any_cons, List.filter_cons, bne_iff_ne, heq]

lemma si5326_init_go_err (t : Transport) (j : Nat) :
    ∀ (todo ir : Nat) (fail : Bool),
      j < todo →
      (∀ k ∈ readWindow ir j, 0 ≤ t.readReg ((k : Int))) →
      t.readReg (((ir + j : Nat) : Int)) < 0 →
      (si5326_init_go t todo ir fail).ret = -EIO_errno ∧
      (si5326_init_go t todo ir fail).ops =
        (readWindow ir (j + 1)).map (fun k : Nat => Op.readOp ((k : Int))) := by
  induction j with
  | zero =>
    intro todo ir fail hlt hok hf
    cases todo with
    | zero => omega
    | succ n =>
      simp only [si5326_init_go]
      rw [if_pos (by simpa using hf)]
      simp [readWindow]
  | succ j ih =>
    intro todo ir fail hlt hok hf
    cases todo with
    | zero => omega
    | succ n =>
      have hir : 0 ≤ t.readReg ((ir : Int)) :=
        hok ir (by rw [readWindow]; exact List.mem_cons_self _ _)
      have htail : ∀ k ∈ readWindow (ir + 1) j, 0 ≤ t.readReg ((k : Int)) :=
        fun k hk => hok k (by rw [readWindow]; exact List.mem_cons_of_mem _ hk)
      have hshift : ir + 1 + j = ir + (j + 1) := by omega
      have hf2 : t.readReg (((ir + 1 + j : Nat) : Int)) < 0 := by rw [hshift]; exact hf
      simp only [si5326_init_go]
      rw [if_neg (by omega)]
      by_cases heq : t.readReg ((ir : Int)) = resetValueInt ir
      · rw [if_neg (not_not_intro heq)]
        have h2 := ih n (ir + 1) fail (by omega) htail hf2
        refine ⟨by simpa using h2.1, ?_⟩
        rw [readWindow]
        simpa using h2.2
      · rw [if_pos heq]
        have h2 := ih n (ir + 1) true (by omega) htail hf2
        refine ⟨by simpa using h2.1, ?_⟩
        rw [readWindow]
        simpa using h2.2

/-- C1: for every device whose transport reads at register addresses
0, 1, 2, 3 all succeed and return exactly the bytes
0x14, 0xE4, 0x42, 0x05 in that order, presence validation
(`si5326_init_client`) succeeds and returns success (0). -/
theorem C1_validation_succeeds_on_reset_signature (t : Transport)
    (h0 : t.readReg 0 = 0x14) (h1 : t.readReg 1 = 0xe4)
    (h2 : t.readReg 2 = 0x42) (h3 : t.readReg 3 = 0x05) :
    (si5326_init_client t).ret = 0 := by
  have hw : readWindow 0 4 = [0, 1, 2, 3] := by decide
  have hok : ∀ k ∈ readWindow 0 4, 0 ≤ t.readReg ((k : Int)) := by
    rw [hw]
    intro k hk
    fin_cases hk <;> simp [h0, h1, h2, h3]
  have hgo := si5326_init_go_ok t 4 0 false hok
  have hcl : si5326_init_client t = si5326_init_go t 4 0 false := rfl
  have r0 : resetValueInt 0 = 0x14 := rfl
  have r1 : resetValueInt 1 = 0xe4 := rfl
  have r2 : resetValueInt 2 = 0x42 := rfl
  have r3 : resetValueInt 3 = 0x05 := rfl
  rw [hcl, hgo, hw]
  simp [List.any_cons, h0, h1, h2, h3, r0, r1, r2, r3]

/-- C1 witness: a transport returning exactly the reset signature
validates successfully. -/
theorem C1_witness : (si5326_init_client tGood).ret = 0 :=
  C1_validation_succeeds_on_reset_signature tGood (by decide) (by decide)
    (by decide) (by decide)

/-- C2: for every device whose four validation reads all succeed but
whose returned 4-byte sequence differs from the reset signature in at
least one position, validation checks all four registers without
short-circuiting, reports every differing index, and fails with
`-ENODEV`. -/
theorem C2_validation_reports_all_mismatches (t : Transport)
    (hok : ∀ k : Nat, k < 4 → 0 ≤ t.readReg ((k : Int)))
    (hmm : ∃ k : Nat, k < 4 ∧ t.readReg ((k : Int)) ≠ resetValueInt k) :
    (si5326_init_client t).ret = -ENODEV ∧
    (si5326_init_client t).mismatchLog =
      (readWindow 0 4).filter
        (fun k : Nat => t.readReg ((k : Int)) != resetValueInt k) ∧
    (si5326_init_client t).ops =
      (readWindow 0 4).map (fun k : Nat => Op.readOp ((k : Int))) := by
  have hw : ∀ k ∈ readWindow 0 4, 0 ≤ t.readReg ((k : Int)) := by
    intro k hk
    exact hok k (by simpa using (mem_readWindow 4 0 k).mp hk)
  have heq := si5326_init_go_ok t 4 0 false hw
  have hany : (readWindow 0 4).any
      (fun k : Nat => t.readReg ((k : Int)) != resetValueInt k) = true := by
    obtain ⟨k, hk4, hne⟩ := hmm
    refine List.any_eq_true.mpr ⟨k, ?_, by simpa [bne_iff_ne] using hne⟩
    exact (mem_readWindow 4 0 k).mpr (by omega)
  have hcl : si5326_init_client t = si5326_init_go t 4 0 false := rfl
  rw [hcl, heq]
  simp [hany]

/-- C2 witness: a transport differing from the signature at indices 1
and 3 is rejected with `-ENODEV`, all four registers are read, and both
differing indices (not only the first) are reported. -/
theorem C2_witness :
    (si5326_init_client tMismatch).ret = -ENODEV ∧
    (si5326_init_client tMismatch).mismatchLog = [1, 3] ∧
    (si5326_init_client tMismatch).ops =
      [Op.readOp 0, Op.readOp 1, Op.readOp 2, Op.readOp 3] := by
  have h := C2_validation_reports_all_mismatches tMismatch
    (by intro k hk; interval_cases k <;> decide)
    ⟨1, by decide, by decide⟩
  refine ⟨h.1, ?_, ?_⟩
  · rw [h.2.1]; decide
  · rw [h.2.2]; decide

/-- C3: if during presence validation the transport read of register i
(for any i in 0..3) fails, validation aborts immediately with `-EIO_errno`
and does not attempt the reads of the remaining registers: exactly
registers 0..i are read. -/
theorem C3_validation_aborts_on_read_failure (t : Transport) (i : Nat)
    (hi : i < 4)
    (hok : ∀ k : Nat, k < i → 0 ≤ t.readReg ((k : Int)))
    (hfail : t.readReg ((i : Int)) < 0) :
    (si5326_init_client t).ret = -EIO_errno ∧
    (si5326_init_client t).ops =
      (readWindow 0 (i + 1)).map (fun k : Nat => Op.readOp ((k : Int))) := by
  have hw : ∀ k ∈ readWindow 0 i, 0 ≤ t.readReg ((k : Int)) := by
    intro k hk
    exact hok k (by simpa using (mem_readWindow i 0 k).mp hk)
  have hf : t.readReg (((0 + i : Nat) : Int)) < 0 := by simpa using hfail
  have h := si5326_init_go_err t i 4 0 false hi hw hf
  have hcl : si5326_init_client t = si5326_init_go t 4 0 false := rfl
  rw [hcl]
  exact h

/-- C3 witness: when the read of register 2 fails, validation returns
`-EIO_errno` having read exactly registers 0, 1 and 2. -/
theorem C3_witness :
    (si5326_init_client tFailAt2).ret = -EIO_errno ∧
    (si5326_init_client tFailAt2).ops =
      [Op.readOp 0, Op.readOp 1, Op.readOp 2] := by
  have h := C3_validation_aborts_on_read_failure tFailAt2 2 (by decide)
    (by intro k hk; interval_cases k <;> decide) (by decide)
  refine ⟨h.1, ?_⟩
  rw [h.2]
  decide

/-! ## Parsing lemmas for the dispatcher grammar -/

lemma isDecChar_iff (c : Char) : isDecChar c = true ↔ 48 ≤ c.toNat ∧ c.toNat ≤ 57 := by
  unfold isDecChar decDigitVal
  split <;> simp_all

lemma isHexChar_iff (c : Char) :
    isHexChar c = true ↔
      (48 ≤ c.toNat ∧ c.toNat ≤ 57) ∨ (97 ≤ c.toNat ∧ c.toNat ≤ 102) ∨
      (65 ≤ c.toNat ∧ c.toNat ≤ 70) := by
  unfold isHexChar hexDigitVal
  split
  · simp_all
  · split
    · simp_all
    · split <;> simp_all

lemma isCSpace_iff (c : Char) :
    isCSpace c = true ↔ c.toNat = 32 ∨ (9 ≤ c.toNat ∧ c.toNat ≤ 13) := by
  simp [isCSpace]

lemma not_space_of_dec (c : Char) (h : isDecChar c = true) : isCSpace c = false := by
  have := (isDecChar_iff c).mp h
  simp [isCSpace]
  omega

lemma not_space_of_hex (c : Char) (h : isHexChar c = true) : isCSpace c = false := by
  have := (isHexChar_iff c).mp h
  simp [isCSpace]
  omega

lemma not_dec_of_space (c : Char) (h : isCSpace c = true) : isDecChar c = false := by
  have := (isCSpace_iff c).mp h
  rcases hd : isDecChar c with _ | _
  · rfl
  · have := (isDecChar_iff c).mp hd
    omega

lemma not_hex_of_space (c : Char) (h : isCSpace c = true) : isHexChar c = false := by
  have := (isCSpace_iff c).mp h
  rcases hd : isHexChar c with _ | _
  · rfl
  · have := (isHexChar_iff c).mp hd
    omega

lemma decDigitVal_eq_none (c : Char) (h : isDecChar c = false) :
    decDigitVal c = Option.none := by
  unfold isDecChar at h
  exact Option.not_isSome_iff_eq_none.mp (by simp [h])

lemma hexDigitVal_eq_none (c : Char) (h : isHexChar c = false) :
    hexDigitVal c = Option.none := by
  unfold isHexChar at h
  exact Option.not_isSome_iff_eq_none.mp (by simp [h])

lemma dropCSpaces_append (ws l : List Char) (h : ws.all isCSpace = true) :
    dropCSpaces (ws ++ l) = dropCSpaces l := by
  induction ws with
  | nil => simp
  | cons w ws ih =>
    simp only [List.all_cons, Bool.and_eq_true] at h
    simp only [List.cons_append, dropCSpaces, h.1, if_pos]
    exact ih h.2

lemma dropCSpaces_of_head (c : Char) (l : List Char) (h : isCSpace c = false) :
    dropCSpaces (c :: l) = c :: l := by
  simp [dropCSpaces, h]

lemma dropCSpaces_all (ws : List Char) (h : ws.all isCSpace = true) :
    dropCSpaces ws = [] := by
  have := dropCSpaces_append ws [] h
  simpa using this

lemma scanNum_append (base : Nat) (dv : Char → Option Nat) (digs : List Char) :
    ∀ (acc : Nat) (rest : List Char),
      (∀ c ∈ digs, (dv c).isSome = true) →
      (∀ c, rest.head? = Option.some c → dv c = Option.none) →
      scanNum base dv acc (digs ++ rest) =
        (digs.foldl (fun a c => a * base + ((dv c).getD 0)) acc, rest) := by
  induction digs with
  | nil =>
    intro acc rest _ hr
    cases rest with
    | nil => simp [scanNum]
    | cons c cs =>
      have hc := hr c rfl
      simp [scanNum, hc]
  | cons c cs ih =>
    intro acc rest hd hr
    obtain ⟨d, hdv⟩ := Option.isSome_iff_exists.mp (hd c (List.mem_cons_self _ _))
    rw [List.cons_append]
    rw [scanNum]
    rw [hdv]
    simp only [List.foldl_cons, hdv, Option.getD_some]
    exact ih (acc * base + d) rest (fun x hx => hd x (List.mem_cons_of_mem _ hx)) hr

lemma scanSign_not_sign (c : Char) (l : List Char)
    (h : c.toNat ≠ 45 ∧ c.toNat ≠ 43) :
    scanSign (c :: l) = (false, c :: l) := by
  simp only [scanSign]
  rw [if_neg h.1, if_neg h.2]

lemma scanDec_spec (wsA digs rest : List Char)
    (hws : wsA.all isCSpace = true) (hne : digs ≠ [])
    (hd : digs.all isDecChar = true)
    (hr : ∀ c, rest.head? = Option.some c → isDecChar c = false) :
    scanDec (wsA ++ (digs ++ rest)) = Option.some ((decValue digs : Int), rest) := by
  rcases digs with _ | ⟨c, cs⟩
  · exact absurd rfl hne
  simp only [List.all_cons, Bool.and_eq_true] at hd
  have hall : ∀ x ∈ cs, isDecChar x = true := List.all_eq_true.mp hd.2
  have hcn := (isDecChar_iff c).mp hd.1
  have h1 : dropCSpaces (wsA ++ (c :: (cs ++ rest))) = c :: (cs ++ rest) := by
    rw [dropCSpaces_append _ _ hws, dropCSpaces_of_head _ _ (not_space_of_dec c hd.1)]
  have hsign := scanSign_not_sign c (cs ++ rest) (by omega)
  have hdv : decDigitVal c = Option.some (c.toNat - 48) := by
    unfold decDigitVal
    rw [if_pos (by simp; omega)]
  have hnum := scanNum_append 10 decDigitVal cs (c.toNat - 48) rest
    (fun x hx => hall x hx)
    (fun x hx => decDigitVal_eq_none x (hr x hx))
  simp only [List.cons_append]
  unfold scanDec
  rw [h1, hsign]
  simp only [hdv, hnum]
  simp [decValue, List.foldl_cons, hdv]

lemma hex_not_xX (c : Char) (h : isHexChar c = true) :
    (c.toNat = 120 || c.toNat = 88) = false := by
  have := (isHexChar_iff c).mp h
  simp
  omega

lemma space_not_xX (c : Char) (h : isCSpace c = true) :
    (c.toNat = 120 || c.toNat = 88) = false := by
  have := (isCSpace_iff c).mp h
  simp
  omega

lemma scanHexBody_id (hexs rest : List Char) (hne : hexs ≠ [])
    (hh : hexs.all isHexChar = true) (hrest : rest.all isCSpace = true) :
    scanHexBody (hexs ++ rest) = hexs ++ rest := by
  rcases hexs with _ | ⟨c0, t0⟩
  · exact absurd rfl hne
  simp only [List.all_cons, Bool.and_eq_true] at hh
  rcases t0 with _ | ⟨c1, t1⟩
  · -- a single hex digit, then only whitespace
    rcases rest with _ | ⟨w1, ws⟩
    · simp [scanHexBody]
    rcases ws with _ | ⟨w2, ws2⟩
    · simp [scanHexBody]
    · have hw1 : isCSpace w1 = true := by
        simp [List.all_cons] at hrest
        exact hrest.1
      simp [scanHexBody, space_not_xX w1 hw1]
  · -- at least two hex digits
    simp only [List.all_cons, Bool.and_eq_true] at hh
    have hc1 : (c1.toNat = 120 || c1.toNat = 88) = false := hex_not_xX c1 hh.2.1
    rcases h3 : t1 ++ rest with _ | ⟨c2, cs⟩
    · simp [List.cons_append, h3, scanHexBody, hc1]
    · simp [List.cons_append, h3, scanHexBody, hc1]

lemma scanHex_spec (hexs rest : List Char) (hne : hexs ≠ [])
    (hh : hexs.all isHexChar = true) (hrest : rest.all isCSpace = true) :
    scanHex (hexs ++ rest) = Option.some ((hexValue hexs : Int), rest) := by
  have hbody := scanHexBody_id hexs rest hne hh hrest
  rcases hexs with _ | ⟨c, cs⟩
  · exact absurd rfl hne
  simp only [List.all_cons, Bool.and_eq_true] at hh
  have hall : ∀ x ∈ cs, isHexChar x = true := List.all_eq_true.mp hh.2
  have hcn := (isHexChar_iff c).mp hh.1
  obtain ⟨d, hdv⟩ := Option.isSome_iff_exists.mp (hh.1)
  have hsign := scanSign_not_sign c (cs ++ rest) (by omega)
  have hnum := scanNum_append 16 hexDigitVal cs d rest
    (fun x hx => hall x hx)
    (fun x hx => hexDigitVal_eq_none x (not_hex_of_space x (by
      rcases rest with _ | ⟨r0, rs⟩
      · simp at hx
      · simp only [List.head?_cons, Option.some.injEq] at hx
        subst hx
        simp only [List.all_cons, Bool.and_eq_true] at hrest
        exact hrest.1)))
  simp only [List.cons_append] at hbody ⊢
  unfold scanHex
  rw [dropCSpaces_of_head _ _ (not_space_of_hex c hh.1), hsign]
  simp only [hbody, hdv, hnum]
  simp [hexValue, List.foldl_cons, hdv]

lemma sscanf_one (wsA digs wsB : List Char)
    (hwsA : wsA.all isCSpace = true) (hne : digs ≠ [])
    (hd : digs.all isDecChar = true) (hwsB : wsB.all isCSpace = true) :
    sscanf_d_0x (wsA ++ (digs ++ wsB)) =
      ScanResult.one (toUnsigned (decValue digs)) := by
  have hdec := scanDec_spec wsA digs wsB hwsA hne hd
    (fun c hc => by
      rcases wsB with _ | ⟨w, ws⟩
      · simp at hc
      · simp only [List.head?_cons, Option.some.injEq] at hc
        subst hc
        simp only [List.all_cons, Bool.and_eq_true] at hwsB
        exact not_dec_of_space _ hwsB.1)
  unfold sscanf_d_0x
  rw [hdec]
  simp only [dropCSpaces_all wsB hwsB]

lemma sscanf_two (wsA digs ws1 hexs wsB : List Char)
    (hwsA : wsA.all isCSpace = true)
    (hne : digs ≠ []) (hd : digs.all isDecChar = true)
    (hws1ne : ws1 ≠ []) (hws1 : ws1.all isCSpace = true)
    (hxne : hexs ≠ []) (hx : hexs.all isHexChar = true)
    (hwsB : wsB.all isCSpace = true) :
    sscanf_d_0x (wsA ++ (digs ++ (ws1 ++ ('0' :: 'x' :: (hexs ++ wsB))))) =
      ScanResult.two (toUnsigned (decValue digs)) (toUnsigned (hexValue hexs)) := by
  have hdec := scanDec_spec wsA digs (ws1 ++ ('0' :: 'x' :: (hexs ++ wsB))) hwsA hne hd
    (fun c hc => by
      rcases ws1 with _ | ⟨w, ws⟩
      · exact absurd rfl hws1ne
      · simp only [List.cons_append, List.head?_cons, Option.some.injEq] at hc
        subst hc
        simp only [List.all_cons, Bool.and_eq_true] at hws1
        exact not_dec_of_space _ hws1.1)
  have hx0 : isCSpace '0' = false := by decide
  have hdrop : dropCSpaces (ws1 ++ ('0' :: 'x' :: (hexs ++ wsB))) =
      '0' :: 'x' :: (hexs ++ wsB) := by
    rw [dropCSpaces_append _ _ hws1, dropCSpaces_of_head _ _ hx0]
  have hhex := scanHex_spec hexs wsB hxne hx hwsB
  unfold sscanf_d_0x
  rw [hdec]
  simp only [hdrop]
  rw [if_pos (by decide)]
  simp only [hhex]

/-! ## Conversion lemmas for the C integer types -/

lemma toUnsigned_ofNat (n : Nat) (h : n < UINT_MOD) : toUnsigned (n : Int) = n := by
  unfold toUnsigned
  rw [Int.emod_eq_of_lt (by positivity) (by exact_mod_cast h)]
  simp

lemma intOfUnsigned_small (n : Nat) (h : n < 2147483648) :
    intOfUnsigned n = (n : Int) := by
  unfold intOfUnsigned
  rw [if_pos h]

lemma isCommentChar_ws_digs (wsA digs rest : List Char)
    (hws : wsA.all isCSpace = true) (hne : digs ≠ [])
    (hd : digs.all isDecChar = true) :
    isCommentChar (wsA ++ (digs ++ rest)) = false := by
  rcases wsA with _ | ⟨w, ws⟩
  · rcases digs with _ | ⟨c, cs⟩
    · exact absurd rfl hne
    simp only [List.all_cons, Bool.and_eq_true] at hd
    have := (isDecChar_iff c).mp hd.1
    simp only [List.nil_append, List.cons_append, isCommentChar,
      decide_eq_false_iff_not]
    omega
  · simp only [List.all_cons, Bool.and_eq_true] at hws
    have := (isCSpace_iff w).mp hws.1
    simp only [List.cons_append, isCommentChar, decide_eq_false_iff_not]
    omega

/-! ## Dispatcher claims -/

/-- C4: for every command line that parses as exactly two tokens, a
decimal address followed by a 0x-prefixed hexadecimal value (with the
address representable in the C `int` and the value a byte), the
dispatcher performs exactly one transport write of that value at that
address and never modifies `last_addr`; on transport failure the
command fails with `-EIO_errno` and on success it reports the full input
length consumed; in both cases the device state is exactly what it was
before the command. -/
theorem C4_write_form (t : Transport) (d : si5326_data) (count : Nat)
    (wsA digs ws1 hexs wsB : List Char)
    (hwsA : wsA.all isCSpace = true)
    (hne : digs ≠ []) (hd : digs.all isDecChar = true)
    (hws1ne : ws1 ≠ []) (hws1 : ws1.all isCSpace = true)
    (hxne : hexs ≠ []) (hx : hexs.all isHexChar = true)
    (hwsB : wsB.all isCSpace = true)
    (haddr : decValue digs < 2147483648) (hval : hexValue hexs < 256) :
    (si5326_store_reg t d (wsA ++ (digs ++ (ws1 ++ ('0' :: 'x' :: (hexs ++ wsB)))))
        count).ops = [Op.writeOp ((decValue digs : Nat) : Int) (hexValue hexs)] ∧
    (si5326_store_reg t d (wsA ++ (digs ++ (ws1 ++ ('0' :: 'x' :: (hexs ++ wsB)))))
        count).data = d ∧
    (t.writeReg ((decValue digs : Nat) : Int) (hexValue hexs) = 0 →
      (si5326_store_reg t d (wsA ++ (digs ++ (ws1 ++ ('0' :: 'x' :: (hexs ++ wsB)))))
          count).ret = (count : Int)) ∧
    (t.writeReg ((decValue digs : Nat) : Int) (hexValue hexs) ≠ 0 →
      (si5326_store_reg t d (wsA ++ (digs ++ (ws1 ++ ('0' :: 'x' :: (hexs ++ wsB)))))
          count).ret = -EIO_errno) := by
  have hscan := sscanf_two wsA digs ws1 hexs wsB hwsA hne hd hws1ne hws1 hxne hx hwsB
  have hcc := isCommentChar_ws_digs wsA digs (ws1 ++ ('0' :: 'x' :: (hexs ++ wsB)))
    hwsA hne hd
  have hu1 : toUnsigned ((decValue digs : Nat) : Int) = decValue digs :=
    toUnsigned_ofNat _ (by unfold UINT_MOD; omega)
  have hu2 : toUnsigned ((hexValue hexs : Nat) : Int) = hexValue hexs :=
    toUnsigned_ofNat _ (by unfold UINT_MOD; omega)
  have hio : intOfUnsigned (decValue digs) = ((decValue digs : Nat) : Int) :=
    intOfUnsigned_small _ haddr
  have hm : hexValue hexs % 256 = hexValue hexs := Nat.mod_eq_of_lt hval
  simp only [si5326_store_reg, hcc, Bool.false_eq_true, if_false, hscan,
    hu1, hu2, hio, hm]
  by_cases hw : t.writeReg ((decValue digs : Nat) : Int) (hexValue hexs) = 0
  · rw [if_neg (not_not_intro hw)]
    exact ⟨rfl, rfl, fun _ => rfl, fun hcon => absurd hw hcon⟩
  · rw [if_pos hw]
    exact ⟨rfl, rfl, fun h0 => absurd h0 hw, fun _ => rfl⟩

/-- C4 witness: the command line `7 0x1a` performs exactly the write of
0x1A at address 7, leaves the device state untouched, and returns the
full count on a transport that accepts the write. -/
theorem C4_witness :
    (si5326_store_reg tGood ⟨3⟩ ['7', ' ', '0', 'x', '1', 'a'] 6).ops =
      [Op.writeOp 7 26] ∧
    (si5326_store_reg tGood ⟨3⟩ ['7', ' ', '0', 'x', '1', 'a'] 6).data = ⟨3⟩ ∧
    (si5326_store_reg tGood ⟨3⟩ ['7', ' ', '0', 'x', '1', 'a'] 6).ret = 6 := by
  have h := C4_write_form tGood ⟨3⟩ 6 [] ['7'] [' '] ['1', 'a'] []
    (by decide) (by decide) (by decide) (by decide) (by decide) (by decide)
    (by decide) (by decide) (by decide) (by decide)
  exact ⟨h.1.trans (by decide), h.2.1, (h.2.2.1 (by decide)).trans (by decide)⟩

/-- C5: for every command line that parses as exactly one decimal
integer `addr` (representable in the C `int`), the dispatcher sets
`last_addr := addr`, performs zero transport transactions, and reports
success (the full input length). -/
theorem C5_address_select (t : Transport) (d : si5326_data) (count : Nat)
    (wsA digs wsB : List Char)
    (hwsA : wsA.all isCSpace = true)
    (hne : digs ≠ []) (hd : digs.all isDecChar = true)
    (hwsB : wsB.all isCSpace = true)
    (haddr : decValue digs < 2147483648) :
    si5326_store_reg t d (wsA ++ (digs ++ wsB)) count =
      ⟨(count : Int), { last_addr := ((decValue digs : Nat) : Int) }, [], []⟩ := by
  have hscan := sscanf_one wsA digs wsB hwsA hne hd hwsB
  have hcc := isCommentChar_ws_digs wsA digs wsB hwsA hne hd
  have hu1 : toUnsigned ((decValue digs : Nat) : Int) = decValue digs :=
    toUnsigned_ofNat _ (by unfold UINT_MOD; omega)
  have hio : intOfUnsigned (decValue digs) = ((decValue digs : Nat) : Int) :=
    intOfUnsigned_small _ haddr
  simp only [si5326_store_reg, hcc, Bool.false_eq_true, if_false, hscan, hu1, hio]

/-- C5 witness: the command `7` selects address 7, issues no bus
transaction and returns the full count. -/
theorem C5_witness :
    si5326_store_reg tGood ⟨0⟩ ['7'] 1 =
      ⟨1, { last_addr := 7 }, [], []⟩ :=
  (C5_address_select tGood ⟨0⟩ 1 [] ['7'] [] (by decide) (by decide) (by decide)
    (by decide) (by decide)).trans (by decide)

/-- C6 counterexample: the line `7 26` (second token without the `0x`
prefix) is not rejected: the scan stops after one conversion, so the
dispatcher succeeds, returns the full count and sets `last_addr := 7` —
contradicting the claimed ProtocolError with no state change.
Moreover the malformed-line error is `-EIO_errno` itself, the very transport
error code, not an error distinct from it: a genuinely unparsable line
(`z`) fails with the same `-EIO_errno` that a failed write reports. -/
theorem C6_counterexample :
    (si5326_store_reg tGood ⟨0⟩ ['7', ' ', '2', '6'] 4).ret = 4 ∧
    (si5326_store_reg tGood ⟨0⟩ ['7', ' ', '2', '6'] 4).data.last_addr = 7 ∧
    (si5326_store_reg tGood ⟨0⟩ ['7', ' ', '2', '6'] 4).ops = [] ∧
    (si5326_store_reg tGood ⟨0⟩ ['z'] 1).ret = -EIO_errno ∧
    (si5326_store_reg tWriteFail ⟨0⟩ ['7', ' ', '0', 'x', '1', 'a'] 6).ret = -EIO_errno := by
  decide

/-- C6 (amended): for every command line that is not a comment and from
which the scan cannot extract even a leading decimal integer, the
dispatcher fails with `-EIO_errno` (numerically the same code the transport
IOError uses), logs the offending input, makes no state change and
performs no bus transaction.  A two-token line whose second token lacks
the `0x` prefix is instead treated as an address-select of its first
token. -/
theorem C6_amended_malformed (t : Transport) (d : si5326_data)
    (buf : List Char) (count : Nat)
    (hc : isCommentChar buf = false)
    (hz : sscanf_d_0x buf = ScanResult.zero) :
    si5326_store_reg t d buf count = ⟨-EIO_errno, d, [], [buf]⟩ := by
  simp only [si5326_store_reg, hc, Bool.false_eq_true, if_false, hz]

/-- C6 witness: the unparsable line `z` fails with `-EIO_errno`, is logged,
and changes nothing. -/
theorem C6_witness :
    si5326_store_reg tGood ⟨0⟩ ['z'] 1 = ⟨-EIO_errno, ⟨0⟩, [], [['z']]⟩ :=
  C6_amended_malformed tGood ⟨0⟩ ['z'] 1 (by decide) (by decide)

/-- C7: the read query performs exactly one transport read at
`last_addr`; on success it writes the `"%02x %02x"` rendering of
`(last_addr, value)` and returns its length; on failure the errno is
propagated and nothing is written. -/
theorem C7_read_query (t : Transport) (d : si5326_data) :
    (si5326_show_reg t d).ops = [Op.readOp d.last_addr] ∧
    (0 ≤ t.readReg d.last_addr →
      (si5326_show_reg t d).out = Option.some
        (fmt02x (toUnsigned d.last_addr) ++
          ' ' :: fmt02x (toUnsigned (t.readReg d.last_addr))) ∧
      (si5326_show_reg t d).ret =
        ((fmt02x (toUnsigned d.last_addr) ++
          ' ' :: fmt02x (toUnsigned (t.readReg d.last_addr))).length : Int)) ∧
    (t.readReg d.last_addr < 0 →
      (si5326_show_reg t d).ret = t.readReg d.last_addr ∧
      (si5326_show_reg t d).out = Option.none) := by
  simp only [si5326_show_reg]
  by_cases h : 0 ≤ t.readReg d.last_addr
  · rw [if_pos h]
    exact ⟨rfl, fun _ => ⟨rfl, rfl⟩, fun hc => absurd hc (by omega)⟩
  · rw [if_neg h]
    exact ⟨rfl, fun hc => absurd hc h, fun _ => ⟨rfl, rfl⟩⟩

/-- C7 witness: with `last_addr = 1` on the reset-signature transport
the query reads register 1 once and renders `01 e4`. -/
theorem C7_witness :
    (si5326_show_reg tGood ⟨1⟩).ops = [Op.readOp 1] ∧
    (si5326_show_reg tGood ⟨1⟩).out = Option.some ['0', '1', ' ', 'e', '4'] := by
  have h := C7_read_query tGood ⟨1⟩
  exact ⟨h.1.trans (by decide), ((h.2.1 (by decide)).1).trans (by decide)⟩

/-- C8: every command line whose first character is `#` succeeds with
the full input length, performs zero transport transactions and leaves
the device state unchanged, whatever follows the `#`. -/
theorem C8_comment_noop (t : Transport) (d : si5326_data)
    (rest : List Char) (count : Nat) :
    si5326_store_reg t d ('#' :: rest) count = ⟨(count : Int), d, [], []⟩ := by
  have hc : isCommentChar ('#' :: rest) = true := rfl
  simp only [si5326_store_reg, hc, if_true]

/-- C9: the per-device mutex is initialized at probe but never
acquired: the address-select command mutates `last_addr`, and the read
query issues a bus transaction, with no lock event whatsoever in their
traces (the `Op.lockAcquire`/`Op.lockRelease` events that
`mutex_lock`/`mutex_unlock` calls would emit never occur). -/
theorem C9_lock_never_taken :
    (si5326_store_reg tGood ⟨0⟩ ['7'] 1).data.last_addr = 7 ∧
    (⟨0⟩ : si5326_data).last_addr ≠ 7 ∧
    (si5326_store_reg tGood ⟨0⟩ ['7'] 1).ops = [] ∧
    (si5326_show_reg tGood ⟨0⟩).ops = [Op.readOp 0] ∧
    Op.lockAcquire ∉ (si5326_show_reg tGood ⟨0⟩).ops := by
  decide

/-- C10: a successful attach zero-allocates the controller state, so
`last_addr = 0`; a read query issued before any address-select performs
exactly one transport read at register 0 and renders the address as
`00`. -/
theorem C10_initial_last_addr_zero (t t2 : Transport) (d : si5326_data)
    (hp : si5326_probe t = Except.ok d) :
    d.last_addr = 0 ∧
    (si5326_show_reg t2 d).ops = [Op.readOp 0] ∧
    (0 ≤ t2.readReg 0 →
      (si5326_show_reg t2 d).out =
        Option.some ('0' :: '0' :: ' ' :: fmt02x (toUnsigned (t2.readReg 0)))) := by
  have hd : d = ⟨0⟩ := by
    unfold si5326_probe at hp
    by_cases h : (si5326_init_client t).ret ≠ 0
    · rw [if_pos h] at hp
      cases hp
    · rw [if_neg h] at hp
      exact (Except.ok.inj hp).symm
  subst hd
  refine ⟨rfl, ?_, ?_⟩
  · simp only [si5326_show_reg]
    split <;> rfl
  · intro h
    simp only [si5326_show_reg]
    rw [if_pos h]
    have h00 : fmt02x (toUnsigned ((⟨0⟩ : si5326_data).last_addr)) = ['0', '0'] := by
      decide
    rw [h00]
    rfl

/-- C10 witness: probing the reset-signature transport succeeds with
`last_addr = 0`, and the first query reads register 0 and renders
`00 14`. -/
theorem C10_witness :
    (si5326_show_reg tGood ⟨0⟩).ops = [Op.readOp 0] ∧
    (si5326_show_reg tGood ⟨0⟩).out = Option.some ['0', '0', ' ', '1', '4'] := by
  have h := C10_initial_last_addr_zero tGood tGood ⟨0⟩ (by rfl)
  exact ⟨h.2.1, (h.2.2 (by decide)).trans (by decide)⟩

end SI5326
